import Mathlib

/-!
A verification development for `lib_layerdiffusion/models.py`: a shallow
embedding of the tensor values (with NaN and signed infinities), rank-4
tensors, the dihedral augmentation protocol of
`TransparentVAEDecoder.estimate_augmented`, the `decode_pixel` entry point,
the checkerboard compositor `fill_checkerboard_bg`, the
`LatentTransparencyOffsetEncoder` stack, and the `UNet1024` forward-pass
skip-connection bookkeeping.
Scalars are modelled as rationals (abstracting from floating-point
rounding) extended with NaN and the two infinities, so that the
NaN/Inf-validation behaviour of the decoder is expressible.
-/

/-- A scalar as stored in a torch tensor: a finite value (modelled as a
rational), NaN, or a signed infinity. -/
inductive Val where
  | num (q : ℚ)
  | nan
  | pinf
  | ninf
deriving DecidableEq

namespace Val

/-- Addition with torch/IEEE special-value propagation: NaN propagates,
and the sum of opposite infinities is NaN. -/
def add : Val → Val → Val
  | nan, _ => nan
  | _, nan => nan
  | num a, num b => num (a + b)
  | pinf, ninf => nan
  | ninf, pinf => nan
  | pinf, _ => pinf
  | _, pinf => pinf
  | ninf, _ => ninf
  | _, ninf => ninf

/-- Multiplication with torch/IEEE special-value propagation:
NaN propagates, and zero times an infinity is NaN. -/
def mul : Val → Val → Val
  | nan, _ => nan
  | _, nan => nan
  | num a, num b => num (a * b)
  | num a, pinf => if 0 < a then pinf else if a < 0 then ninf else nan
  | num a, ninf => if 0 < a then ninf else if a < 0 then pinf else nan
  | pinf, num b => if 0 < b then pinf else if b < 0 then ninf else nan
  | ninf, num b => if 0 < b then ninf else if b < 0 then pinf else nan
  | pinf, pinf => pinf
  | pinf, ninf => ninf
  | ninf, pinf => ninf
  | ninf, ninf => pinf

/-- Negation. -/
def neg : Val → Val
  | num a => num (-a)
  | nan => nan
  | pinf => ninf
  | ninf => pinf

/-- Subtraction, defined as addition of the negation. -/
def sub (a b : Val) : Val := a.add b.neg

/-- The semantics of `.clip(0, 1)` / `torch.clamp(x, 0, 1)`: finite
values are clamped into the interval, infinities clamp to the
corresponding bound, NaN stays NaN. -/
def clip01 : Val → Val
  | num q => num (max 0 (min 1 q))
  | nan => nan
  | pinf => num 1
  | ninf => num 0

/-- Division by a (positive) natural number, as used by `torch.mean`. -/
def divNat : Val → ℕ → Val
  | num q, n => num (q / (n : ℚ))
  | nan, _ => nan
  | pinf, _ => pinf
  | ninf, _ => ninf

/-- True exactly when the value is NaN or an infinity: the condition
tested by `torch.isnan(x).any() or torch.isinf(x).any()`. -/
def isBad : Val → Bool
  | num _ => false
  | _ => true

end Val

/-- A value is a finite number lying in the unit interval. -/
def ValIn01 : Val → Prop
  | Val.num q => 0 ≤ q ∧ q ≤ 1
  | _ => False

/-- A rank-4 torch tensor: four dimension sizes, a device id, a dtype id
(both opaque), and the stored values. -/
structure Tensor4 where
  n0 : ℕ
  n1 : ℕ
  n2 : ℕ
  n3 : ℕ
  dev : ℕ
  dt : ℕ
  data : Fin n0 → Fin n1 → Fin n2 → Fin n3 → Val

namespace Tensor4

/-- Total accessor with an out-of-range default, used to phrase
index-level facts without dependent index types. -/
def entry (t : Tensor4) (a b c d : ℕ) : Val :=
  if h : a < t.n0 ∧ b < t.n1 ∧ c < t.n2 ∧ d < t.n3 then
    t.data ⟨a, h.1⟩ ⟨b, h.2.1⟩ ⟨c, h.2.2.1⟩ ⟨d, h.2.2.2⟩
  else Val.num 0

/-- The semantics of `.to(device, dtype)`: placement metadata changes,
values are carried over (rounding from precision changes is not
modelled). -/
def toDev (t : Tensor4) (dev dt : ℕ) : Tensor4 := { t with dev := dev, dt := dt }

/-- Elementwise `.clip(0, 1)`. -/
def clip01T (t : Tensor4) : Tensor4 :=
  { t with data := fun i j u v => (t.data i j u v).clip01 }

/-- Elementwise addition `a + b` (the decoder only ever adds tensors of
equal shape; the left operand fixes the result shape). -/
def addT (a b : Tensor4) : Tensor4 :=
  { a with data := fun i j u v => (a.data i j u v).add (b.entry i.val j.val u.val v.val) }

/-- Whether some stored value is NaN or infinite, as a decidable check. -/
def hasBadB (t : Tensor4) : Bool :=
  decide (∃ i j u v, (t.data i j u v).isBad = true)

/-- No stored value is NaN or infinite. -/
def NoBad (t : Tensor4) : Prop :=
  ∀ i j u v, (t.data i j u v).isBad = false

/-- The dimension quadruple (`x.shape`). -/
def dims (t : Tensor4) : ℕ × ℕ × ℕ × ℕ := (t.n0, t.n1, t.n2, t.n3)

end Tensor4

/-- The semantics of `torch.flip(x, dims=(3,))`: mirror along the last
(width) axis. -/
def flipW (t : Tensor4) : Tensor4 :=
  { t with data := fun i j u v => t.data i j u v.rev }

/-- One quarter-turn of `torch.rot90(x, k=1, dims=(2, 3))`: the two
spatial axes swap and the new row index runs backwards along the old
column index. -/
def rot90 (t : Tensor4) : Tensor4 :=
  ⟨t.n0, t.n1, t.n3, t.n2, t.dev, t.dt, fun i j u v => t.data i j v u.rev⟩

/-- The semantics of `torch.rot90(x, k, dims=(2, 3))` for an arbitrary
integer `k`: rotation by `k` quarter-turns, i.e. by `k % 4` of them
(Python-style nonnegative remainder, matching `Int.emod`). -/
def rotk (k : ℤ) (t : Tensor4) : Tensor4 :=
  rot90^[(k % 4).toNat] t

/-- The forward transform of one augmentation descriptor, as applied to
`feed_pixel`/`feed_latent`: optional width flip, then `k` quarter-turn
rotations. -/
def augFwd (flip : Bool) (k : ℤ) (t : Tensor4) : Tensor4 :=
  rotk k (if flip then flipW t else t)

/-- The inverse transform applied to the per-augmentation network
output: rotate back by `-k`, then mirror back if a flip was applied. -/
def augInv (flip : Bool) (k : ℤ) (t : Tensor4) : Tensor4 :=
  let y := rotk (-k) t
  if flip then flipW y else y

/-- The hardcoded list of 8 augmentation descriptors `args` of
`estimate_augmented`, in source order. -/
def augArgs : List (Bool × ℤ) :=
  [(false, 0), (false, 1), (false, 2), (false, 3),
   (true, 0), (true, 1), (true, 2), (true, 3)]

/-- One iteration of the augmentation loop of `estimate_augmented`:
clone (a no-op here), flip if requested, rotate by `rok` quarter turns,
run the network, clamp to [0, 1], rotate back by `-rok`, flip back. -/
def augPass (net : Tensor4 → Tensor4 → Tensor4) (pixel latent : Tensor4)
    (flip : Bool) (rok : ℤ) : Tensor4 :=
  let feed_pixel := if flip then flipW pixel else pixel
  let feed_latent := if flip then flipW latent else latent
  let feed_pixel := rotk rok feed_pixel
  let feed_latent := rotk rok feed_latent
  let eps := (net feed_pixel feed_latent).clip01T
  let eps := rotk (-rok) eps
  if flip then flipW eps else eps

/-- The list `result` of the 8 inverse-transformed per-augmentation
outputs, in the order of `augArgs`. -/
def ensembleList (net : Tensor4 → Tensor4 → Tensor4) (pixel latent : Tensor4) :
    List Tensor4 :=
  augArgs.map fun a => augPass net pixel latent a.1 a.2

/-- Whether all tensors of the list share one shape: the precondition
`torch.stack` enforces (it raises a RuntimeError otherwise). -/
def sameShapeB : List Tensor4 → Bool
  | [] => true
  | h :: tl => tl.all fun t => decide (t.dims = h.dims)

/-- Whether the stacked tensor contains a NaN or infinite value; since
`torch.stack` merely concatenates along a new leading axis, this is
exactly some element containing one. -/
def stackHasBadB (l : List Tensor4) : Bool := l.any Tensor4.hasBadB

/-- The semantics of `torch.mean(torch.stack(result, dim=0), dim=0)`:
the result takes the common shape and each entry is the arithmetic mean
of the corresponding entries of the stacked tensors. -/
def meanStack (l : List Tensor4) : Tensor4 :=
  match l with
  | [] => ⟨0, 0, 0, 0, 0, 0, fun i _ _ _ => i.elim0⟩
  | h :: _ =>
    ⟨h.n0, h.n1, h.n2, h.n3, h.dev, h.dt, fun i j u v =>
      Val.divNat
        (l.foldl (fun acc t => acc.add (t.entry i.val j.val u.val v.val)) (Val.num 0))
        l.length⟩

/-- The error taxonomy of the decode path. `assertChannels3` models the
input-channel assertion of `decode_pixel`, `stackMismatch` the
RuntimeError `torch.stack` raises on unequal shapes, `nanInf` the
ValueError "Stacked tensor contains NaN or inf values", `fewDims` the
ValueError for a result of rank below 2 (unreachable at our fixed rank
4), `assertChannels4` the output-channel assertion. -/
inductive DecodeError where
  | assertChannels3 (got : ℕ)
  | stackMismatch
  | nanInf
  | fewDims
  | assertChannels4 (got : ℕ)
deriving DecidableEq

/-- `TransparentVAEDecoder.estimate_augmented`: run the 8 augmented
passes, stack them (shape mismatch raises), validate against NaN/Inf
(raising a ValueError), and aggregate by the elementwise mean. -/
def estimate_augmented (net : Tensor4 → Tensor4 → Tensor4)
    (pixel latent : Tensor4) : Except DecodeError Tensor4 :=
  let result := ensembleList net pixel latent
  if sameShapeB result then
    if stackHasBadB result then .error .nanInf
    else .ok (meanStack result)
  else .error .stackMismatch

/-- The decoder object: its configured compute device and dtype, and
the loaded `UNet1024` forward pass, abstract here (its parameters were
loaded strictly at construction, out of scope). -/
structure TransparentVAEDecoder where
  load_device : ℕ
  dtype : ℕ
  net : Tensor4 → Tensor4 → Tensor4

/-- The ensemble list as built inside `decode_pixel`, i.e. on the
inputs converted to the decoder's device and dtype. -/
def decodeEnsemble (D : TransparentVAEDecoder) (pixel latent : Tensor4) :
    List Tensor4 :=
  ensembleList D.net (pixel.toDev D.load_device D.dtype) (latent.toDev D.load_device D.dtype)

/-- `TransparentVAEDecoder.decode_pixel`: assert 3 input channels,
remember the input's device/dtype, convert both inputs to the decoder's
device/dtype, run the augmented estimate, clamp to [0, 1], assert 4
output channels, and return on the original device/dtype. The source's
`len(y.shape) < 2` guard is omitted: rank is fixed at 4 in this
embedding, so that branch cannot fire. -/
def decode_pixel (D : TransparentVAEDecoder) (pixel latent : Tensor4) :
    Except DecodeError Tensor4 :=
  if pixel.n1 = 3 then
    let pixel_device := pixel.dev
    let pixel_dtype := pixel.dt
    let p := pixel.toDev D.load_device D.dtype
    let l := latent.toDev D.load_device D.dtype
    match estimate_augmented D.net p l with
    | .error e => .error e
    | .ok y =>
      let y := y.clip01T
      if y.n1 = 4 then .ok (y.toDev pixel_device pixel_dtype)
      else .error (.assertChannels4 y.n1)
  else .error (.assertChannels3 pixel.n1)

/-- The shape contract of the loaded `UNet1024` on the inputs the
decoder feeds it: batch and spatial sizes of the pixel input are kept
and the channel count is 4. -/
def NetShapeOK (net : Tensor4 → Tensor4 → Tensor4) : Prop :=
  ∀ p l, (net p l).n0 = p.n0 ∧ (net p l).n1 = 4 ∧
    (net p l).n2 = p.n2 ∧ (net p l).n3 = p.n3

/-- The binary pattern of `checkerboard(shape)`:
`np.indices(shape).sum(axis=0) % 2` is `(i + j) % 2`. -/
def checkerboardPat (i j : ℕ) : ℕ := (i + j) % 2

/-- Nearest-neighbour resize of an `srcH × srcW` grid to `dstH × dstW`
(`cv2.resize(..., interpolation=cv2.INTER_NEAREST)`): destination cell
`(p, q)` reads source cell `(⌊p·srcH/dstH⌋, ⌊q·srcW/dstW⌋)`. -/
def resizeNearest (srcH srcW dstH dstW : ℕ) (f : ℕ → ℕ → ℕ) (p q : ℕ) : ℕ :=
  f (p * srcH / dstH) (q * srcW / dstW)

/-- The rescaled checkerboard value at full-resolution cell `(p, q)` of
an `H × W` image: the `H/64 × W/64` binary pattern, nearest-neighbour
upsampled, then `0.5 + (v - 0.5) * 0.1`. -/
def cbRescaled (H W p q : ℕ) : ℚ :=
  1/2 + ((resizeNearest (H / 64) (W / 64) H W checkerboardPat p q : ℚ) - 1/2) * (1/10)

/-- The error raised by `cv2.resize` when the source checkerboard is
empty along some axis. -/
inductive ResizeError where
  | emptySource
deriving DecidableEq

/-- `fill_checkerboard_bg(y)`: `y` is channel-last `(B, H, W, C)`;
channel 0 is alpha, channels `1..C-1` are the foreground; the result is
`fg * alpha + cb * (1 - alpha)` against the rescaled checkerboard.
`cv2.resize` raises when the `H/64 × W/64` source pattern is empty. -/
def fill_checkerboard_bg (y : Tensor4) : Except ResizeError Tensor4 :=
  if y.n1 / 64 = 0 ∨ y.n2 / 64 = 0 then .error .emptySource
  else .ok ⟨y.n0, y.n1, y.n2, y.n3 - 1, y.dev, y.dt, fun b p q c =>
    have hc := c.isLt
    let alpha := y.data b p q ⟨0, by omega⟩
    let fgv := y.data b p q ⟨c.val + 1, by omega⟩
    (fgv.mul alpha).add ((Val.num (cbRescaled y.n1 y.n2 p.val q.val)).mul
      ((Val.num 1).sub alpha))⟩

/-- One module of the `LatentTransparencyOffsetEncoder` stack: a 2-d
convolution (with its channel, kernel, padding and stride parameters and
whether it is wrapped in `zero_module`) or a SiLU activation. -/
inductive OffMod where
  | conv (inC outC kern pad stride : ℕ) (zeroInit : Bool)
  | silu
deriving DecidableEq

/-- The `torch.nn.Sequential` of `LatentTransparencyOffsetEncoder`,
module by module in source order. -/
def offsetEncoderModules : List OffMod :=
  [.conv 4 32 3 1 1 false, .silu,
   .conv 32 32 3 1 1 false, .silu,
   .conv 32 64 3 1 2 false, .silu,
   .conv 64 64 3 1 1 false, .silu,
   .conv 64 128 3 1 2 false, .silu,
   .conv 128 128 3 1 1 false, .silu,
   .conv 128 256 3 1 2 false, .silu,
   .conv 256 256 3 1 1 false, .silu,
   .conv 256 4 3 1 1 true]

/-- Output size of one spatial dimension of `torch.nn.Conv2d`:
`(h + 2·pad - kern) / stride + 1`, with floor division. -/
def convOutDim (h kern pad stride : ℕ) : ℕ := (h + 2 * pad - kern) / stride + 1

/-- Shape transfer of one module: SiLU keeps the shape, a convolution
requires its input channel count and maps the spatial sizes. -/
def offStep (s : Option (ℕ × ℕ × ℕ × ℕ)) (m : OffMod) : Option (ℕ × ℕ × ℕ × ℕ) :=
  s.bind fun x =>
    match x, m with
    | (b, c, h, w), .silu => some (b, c, h, w)
    | (b, c, h, w), .conv ic oc k p st _ =>
      if c = ic then some (b, oc, convOutDim h k p st, convOutDim w k p st)
      else none

/-- The shape of `LatentTransparencyOffsetEncoder.__call__` on an input
of the given shape, `none` when some convolution rejects its input. -/
def offsetEncodeShape (s : ℕ × ℕ × ℕ × ℕ) : Option (ℕ × ℕ × ℕ × ℕ) :=
  offsetEncoderModules.foldl offStep (some s)

/-- Whether a module is a convolution. -/
def OffMod.isConv : OffMod → Bool
  | .conv _ _ _ _ _ _ => true
  | .silu => false

/-- The `block_out_channels` configuration of `UNet1024`. -/
def block_out_channels : List ℕ := [32, 32, 64, 128, 256, 512, 512]

/-- The `layers_per_block` configuration of `UNet1024`. -/
def layers_per_block : ℕ := 2

/-- A 1×1 convolution, the form of `latent_conv_in`. -/
structure Conv1x1 where
  inC : ℕ
  outC : ℕ
  weight : ℕ → ℕ → ℚ
  bias : ℕ → ℚ

/-- `zero_module`: zero out all parameters of the module. -/
def zero_module (c : Conv1x1) : Conv1x1 :=
  { c with weight := fun _ _ => 0, bias := fun _ => 0 }

/-- `self.latent_conv_in = zero_module(nn.Conv2d(4, block_out_channels[2],
kernel_size=1))`, for arbitrary pre-zeroing initial parameters. -/
def latent_conv_in (w : ℕ → ℕ → ℚ) (bs : ℕ → ℚ) : Conv1x1 :=
  zero_module ⟨4, block_out_channels.getD 2 0, w, bs⟩

/-- Application of a 1×1 convolution: per output channel, bias plus the
weighted sum over input channels at the same spatial location. -/
def conv1x1 (c : Conv1x1) (t : Tensor4) : Tensor4 :=
  ⟨t.n0, c.outC, t.n2, t.n3, t.dev, t.dt, fun i o u v =>
    (List.finRange t.n1).foldl
      (fun acc j => acc.add ((Val.num (c.weight o.val j.val)).mul (t.data i j u v)))
      (Val.num (c.bias o.val))⟩

/-- The sub-modules of `UNet1024` other than `latent_conv_in`, kept
abstract: the down blocks (returning the new sample and the residual
tensors they push), the mid block, the up blocks (consuming
`up_resnets i` skip tensors each) and the in/out convolutions. -/
structure UNetBlocks where
  conv_in : Tensor4 → Tensor4
  down_block : ℕ → Tensor4 → Tensor4 × List Tensor4
  mid_block : Tensor4 → Tensor4
  up_block : ℕ → Tensor4 → List Tensor4 → Tensor4
  up_resnets : ℕ → ℕ
  conv_out : Tensor4 → Tensor4

/-- One iteration of the down loop of `UNet1024.forward`: when `i = 3`
the projected latent is added to the running sample before the block
consumes it; the block's residual outputs are appended to the skip
stack. -/
def downStep (m : UNetBlocks) (sl : Tensor4) (st : Tensor4 × List Tensor4)
    (i : ℕ) : Tensor4 × List Tensor4 :=
  let s := if i = 3 then st.1.addT sl else st.1
  let r := m.down_block i s
  (r.1, st.2 ++ r.2)

/-- The down loop of `UNet1024.forward`: 7 blocks, starting from the
`conv_in` output, which also seeds the skip stack
(`down_block_res_samples = (sample,)`). -/
def downPhase (m : UNetBlocks) (sl s0 : Tensor4) : Tensor4 × List Tensor4 :=
  (List.range 7).foldl (downStep m sl) (s0, [s0])

/-- One iteration of the up loop of `UNet1024.forward`: pop the last
`up_resnets i` tensors off the skip stack
(`down_block_res_samples[-n:]` / `[:-n]`) and feed them to the block. -/
def upStep (m : UNetBlocks) (st : Tensor4 × List Tensor4) (i : ℕ) :
    Tensor4 × List Tensor4 :=
  let n := m.up_resnets i
  let res := st.2.drop (st.2.length - n)
  let rest := st.2.take (st.2.length - n)
  (m.up_block i st.1 res, rest)

/-- The up loop of `UNet1024.forward`. -/
def upPhase (m : UNetBlocks) (s : Tensor4) (stack : List Tensor4) :
    Tensor4 × List Tensor4 :=
  (List.range 7).foldl (upStep m) (s, stack)

/-- `UNet1024.forward`: project the latent through `latent_conv_in`,
project the pixel input through `conv_in`, run the down loop (injecting
the projected latent at index 3), the mid block, the up loop, and the
output convolution stack. -/
def unet_forward (m : UNetBlocks) (lc : Conv1x1) (x latent : Tensor4) : Tensor4 :=
  let sample_latent := conv1x1 lc latent
  let s0 := m.conv_in x
  let d := downPhase m sample_latent s0
  let s := m.mid_block d.1
  let u := upPhase m s d.2
  m.conv_out u.1

/-- Characterisation of the down pass: `downOuts m sl s0 n` is the
running sample after the first `n` down blocks. Block 3 — the fourth,
zero-indexed 3 — consumes the third block's output plus the projected
latent `sl`; every other block consumes its predecessor's output
unchanged. -/
def downOuts (m : UNetBlocks) (sl s0 : Tensor4) : ℕ → Tensor4
  | 0 => s0
  | n + 1 =>
    (m.down_block n (if n = 3 then (downOuts m sl s0 n).addT sl else downOuts m sl s0 n)).1

/-- Modelled from the spec: each down block returns one skip tensor per
residual sub-block (`layers_per_block` of them) plus one for its
downsampler, present on every block except the final one
(`add_downsample=not is_final_block`); the block internals live in the
external `diffusers` library, outside `src/`. -/
def downResCount (i : ℕ) : ℕ :=
  layers_per_block + (if i = block_out_channels.length - 1 then 0 else 1)

/-- Modelled from the spec: each up block is built with
`num_layers=layers_per_block + 1` residual sub-blocks
(`len(upsample_block.resnets)`); the block internals live in the
external `diffusers` library, outside `src/`. -/
def upResnetCount (_i : ℕ) : ℕ := layers_per_block + 1

/-- Token-level skip stack after the down pass: each produced tensor is
numbered in production order, starting from the `conv_in` seed `0`. -/
def skipStackAfterDown : List ℕ :=
  (List.range 7).foldl
    (fun st i => st ++ (List.range (downResCount i)).map (fun k => st.length + k))
    [0]

/-- Token-level up loop, mirroring the slicing of `upStep`: collect the
groups popped by the 7 up blocks, the remaining stack, and whether each
pop found at least as many tensors as it asked for (no underflow). -/
def upSim : List (List ℕ) × List ℕ × Bool :=
  (List.range 7).foldl
    (fun st i =>
      let n := upResnetCount i
      let stack := st.2.1
      (st.1 ++ [stack.drop (stack.length - n)],
       stack.take (stack.length - n),
       st.2.2 && decide (n ≤ stack.length)))
    ([], skipStackAfterDown, true)

/-- A constant tensor, used as a concrete input. -/
def constT (n0 n1 n2 n3 : ℕ) (v : Val) : Tensor4 :=
  ⟨n0, n1, n2, n3, 0, 0, fun _ _ _ _ => v⟩

/-- A concrete network satisfying the `UNet1024` shape contract and
returning all zeros. -/
def net0 : Tensor4 → Tensor4 → Tensor4 :=
  fun p _l => ⟨p.n0, 4, p.n2, p.n3, p.dev, p.dt, fun _ _ _ _ => Val.num 0⟩

/-- A concrete network forced to emit NaN everywhere. -/
def netNaN : Tensor4 → Tensor4 → Tensor4 :=
  fun p _l => ⟨p.n0, 4, p.n2, p.n3, p.dev, p.dt, fun _ _ _ _ => Val.nan⟩

/-- A decoder holding the all-zeros network. -/
def D0 : TransparentVAEDecoder := ⟨0, 0, net0⟩

/-- A decoder holding the NaN-emitting network. -/
def DNaN : TransparentVAEDecoder := ⟨0, 0, netNaN⟩

/-- A concrete valid pixel input, shape 1×3×1×1. -/
def p0 : Tensor4 := constT 1 3 1 1 (Val.num 0)

/-- A concrete latent input, shape 1×4×1×1. -/
def l0 : Tensor4 := constT 1 4 1 1 (Val.num 0)

/-- A concrete pixel input with channel count 2 ≠ 3. -/
def pBad : Tensor4 := constT 1 2 1 1 (Val.num 0)

/-- A concrete channel-last RGBA input of shape 1×64×64×4 with alpha
identically 1. -/
def y0 : Tensor4 :=
  ⟨1, 64, 64, 4, 0, 0, fun _ _ _ c => if c.val = 0 then Val.num 1 else Val.num (1/2)⟩

/-- Extract the payload of a successful decode, with a junk default. -/
def exceptGet (e : Except DecodeError Tensor4) : Tensor4 :=
  match e with
  | .ok y => y
  | .error _ => ⟨0, 0, 0, 0, 0, 0, fun i _ _ _ => i.elim0⟩

/-- Whether a decode result is a success. -/
def isOkB (e : Except DecodeError Tensor4) : Bool :=
  match e with
  | .ok _ => true
  | .error _ => false

/-- The error of a failed decode, if any. -/
def errOf (e : Except DecodeError Tensor4) : Option DecodeError :=
  match e with
  | .ok _ => none
  | .error x => some x

/-- A concrete collection of UNet sub-blocks: pass-through blocks with
the correct up-block resnet count. -/
def m0 : UNetBlocks :=
  ⟨id, fun _ s => (s, []), id, fun _ s _ => s, fun _ => 3, id⟩

/-- Concrete pre-zeroing weights for `latent_conv_in`. -/
def w0 : ℕ → ℕ → ℚ := fun _ _ => 1

/-- Concrete pre-zeroing biases for `latent_conv_in`. -/
def bs0 : ℕ → ℚ := fun _ => 1

/-! Helper lemmas. -/

theorem rot90_four (t : Tensor4) : rot90 (rot90 (rot90 (rot90 t))) = t := by
  cases t with
  | mk n0 n1 n2 n3 dev dt d => simp [rot90, Fin.rev_rev]

theorem rot90_iter4 (t : Tensor4) : rot90^[4] t = t := by
  show rot90 (rot90 (rot90 (rot90 t))) = t
  exact rot90_four t

theorem flipW_flipW (t : Tensor4) : flipW (flipW t) = t := by
  cases t with
  | mk n0 n1 n2 n3 dev dt d => simp [flipW, Fin.rev_rev]

theorem rotk_cancel (k : ℤ) (t : Tensor4) : rotk (-k) (rotk k t) = t := by
  unfold rotk
  rw [← Function.iterate_add_apply]
  have h : (-k % 4).toNat + (k % 4).toNat = 0 ∨ (-k % 4).toNat + (k % 4).toNat = 4 := by
    omega
  rcases h with h | h <;> rw [h]
  · rfl
  · exact rot90_iter4 t

theorem isBad_false_iff (v : Val) : v.isBad = false ↔ ∃ q, v = Val.num q := by
  cases v <;> simp [Val.isBad]

theorem add_good (a b : Val) (ha : a.isBad = false) (hb : b.isBad = false) :
    (a.add b).isBad = false := by
  cases a <;> cases b <;> simp_all [Val.add, Val.isBad]

theorem divNat_good (v : Val) (h : v.isBad = false) (n : ℕ) :
    (v.divNat n).isBad = false := by
  cases v <;> simp_all [Val.divNat, Val.isBad]

theorem clip01_good (v : Val) (h : v.isBad = false) : (v.clip01).isBad = false := by
  cases v <;> simp_all [Val.clip01, Val.isBad]

theorem clip01_in01 (v : Val) (h : v.isBad = false) : ValIn01 v.clip01 := by
  rcases (isBad_false_iff v).1 h with ⟨q, rfl⟩
  refine ⟨le_max_left 0 _, max_le (by norm_num) (min_le_left 1 q)⟩

theorem entry_eq (t : Tensor4) (a b c d : ℕ) (h0 : a < t.n0) (h1 : b < t.n1)
    (h2 : c < t.n2) (h3 : d < t.n3) :
    t.entry a b c d = t.data ⟨a, h0⟩ ⟨b, h1⟩ ⟨c, h2⟩ ⟨d, h3⟩ := by
  unfold Tensor4.entry
  rw [dif_pos ⟨h0, h1, h2, h3⟩]

theorem entry_good (t : Tensor4) (h : t.hasBadB = false) (a b c d : ℕ) :
    (t.entry a b c d).isBad = false := by
  unfold Tensor4.entry
  split
  · next hh =>
    have hno := of_decide_eq_false h
    push_neg at hno
    simpa using hno ⟨a, hh.1⟩ ⟨b, hh.2.1⟩ ⟨c, hh.2.2.1⟩ ⟨d, hh.2.2.2⟩
  · rfl

theorem stack_good (l : List Tensor4) (h : stackHasBadB l = false) :
    ∀ t ∈ l, t.hasBadB = false := by
  intro t ht
  by_contra hne
  have ht' : t.hasBadB = true := by
    cases hb : t.hasBadB
    · exact absurd hb hne
    · rfl
  have : stackHasBadB l = true := by
    unfold stackHasBadB
    exact List.any_eq_true.2 ⟨t, ht, ht'⟩
  simp [this] at h

theorem foldl_entry_good (a b c d : ℕ) (L : List Tensor4)
    (hL : ∀ t ∈ L, t.hasBadB = false) :
    ∀ acc : Val, acc.isBad = false →
      (L.foldl (fun acc t => acc.add (t.entry a b c d)) acc).isBad = false := by
  induction L with
  | nil => intro acc hacc; exact hacc
  | cons t L ih =>
    intro acc hacc
    have ht := hL t (List.mem_cons_self t L)
    refine ih (fun s hs => hL s (List.mem_cons_of_mem t hs)) _ ?_
    exact add_good _ _ hacc (entry_good t ht a b c d)

theorem meanStack_good (l : List Tensor4) (hbad : stackHasBadB l = false) :
    ∀ i j u v, ((meanStack l).data i j u v).isBad = false := by
  intro i j u v
  cases l with
  | nil => exact i.elim0
  | cons h tl =>
    show (Val.divNat _ _).isBad = false
    refine divNat_good _ ?_ _
    exact foldl_entry_good _ _ _ _ _ (stack_good _ hbad) _ rfl

theorem est_ok (net : Tensor4 → Tensor4 → Tensor4) (p l : Tensor4)
    (hss : sameShapeB (ensembleList net p l) = true)
    (hbad : stackHasBadB (ensembleList net p l) = false) :
    estimate_augmented net p l = .ok (meanStack (ensembleList net p l)) := by
  simp only [estimate_augmented]
  rw [if_pos hss, if_neg (by simp [hbad])]

theorem est_err_nan (net : Tensor4 → Tensor4 → Tensor4) (p l : Tensor4)
    (hss : sameShapeB (ensembleList net p l) = true)
    (hbad : stackHasBadB (ensembleList net p l) = true) :
    estimate_augmented net p l = .error .nanInf := by
  simp only [estimate_augmented]
  rw [if_pos hss, if_pos hbad]

theorem est_ok_inv (net : Tensor4 → Tensor4 → Tensor4) (p l y : Tensor4)
    (h : estimate_augmented net p l = .ok y) :
    sameShapeB (ensembleList net p l) = true ∧
    stackHasBadB (ensembleList net p l) = false ∧
    y = meanStack (ensembleList net p l) := by
  simp only [estimate_augmented] at h
  split at h
  · next h1 =>
    split at h
    · exact absurd h (by simp)
    · next h2 =>
      refine ⟨h1, Bool.eq_false_iff.mpr h2, ?_⟩
      injection h with h
      exact h.symm
  · exact absurd h (by simp)

theorem isOk_get (e : Except DecodeError Tensor4) (h : isOkB e = true) :
    e = .ok (exceptGet e) := by
  cases e with
  | ok y => rfl
  | error x => simp [isOkB] at h

theorem offStep_silu (x : ℕ × ℕ × ℕ × ℕ) : offStep (some x) .silu = some x := by
  rcases x with ⟨b, c, h, w⟩
  rfl

theorem offStep_conv (b h w ic oc k p st : ℕ) (z : Bool) :
    offStep (some (b, ic, h, w)) (.conv ic oc k p st z) =
      some (b, oc, convOutDim h k p st, convOutDim w k p st) := by
  show (if ic = ic then _ else none) = _
  rw [if_pos rfl]

/-! Claim theorems. -/

/-- C2: for every tensor `t`, every rotation count `k` and every flip
flag, the augmentation protocol round-trips exactly: applying the
forward transform (optional width-axis flip, then `k` quarter-turn
rotations) and then the inverse (rotate by `-k`, then flip back if
flipped) yields `t` unchanged; in particular `rot90` by `k` followed by
`rot90` by `-k` is the identity for every tensor. This holds for every
integer `k`, hence for `k` in {0, 1, 2, 3}. -/
theorem C2_augmentation_roundtrip (t : Tensor4) (flip : Bool) (k : ℤ) :
    augInv flip k (augFwd flip k t) = t ∧ rotk (-k) (rotk k t) = t := by
  refine ⟨?_, rotk_cancel k t⟩
  unfold augFwd augInv
  cases flip <;> simp [rotk_cancel, flipW_flipW]

/-- C4: for every input whose pixel tensor has channel dimension (dim 1)
not equal to 3, `decode_pixel` fails with the precondition assertion
error, for any batch and spatial size; the result is the same for every
decoder (every network, device and dtype), so no network compute or
device transfer takes part in it. -/
theorem C4_channel_precondition (D : TransparentVAEDecoder)
    (pixel latent : Tensor4) (h : pixel.n1 ≠ 3) :
    decode_pixel D pixel latent = .error (.assertChannels3 pixel.n1) := by
  simp only [decode_pixel]
  rw [if_neg h]

theorem C4_channel_precondition_witness :
    decode_pixel D0 pBad l0 = .error (.assertChannels3 2) :=
  C4_channel_precondition D0 pBad l0 (by decide)

/-- C9: the skip-connection stack is exactly balanced over a forward
pass: the down pass produces 21 tensors (the `conv_in` seed plus the
per-block residuals), the 7 decoder stages consume
`layers_per_block + 1 = 3` tensors each — 21 in total — in LIFO order
(the group popped first consists of the last-produced tokens 18, 19,
20, and so on down to 0, 1, 2), leaving no leftover tensors and never
underflowing. -/
theorem C9_skip_stack_balance :
    skipStackAfterDown.length = 21 ∧
    21 = 7 * (layers_per_block + 1) ∧
    upSim.2.1 = [] ∧
    upSim.2.2 = true ∧
    upSim.1 = [[18, 19, 20], [15, 16, 17], [12, 13, 14], [9, 10, 11],
               [6, 7, 8], [3, 4, 5], [0, 1, 2]] ∧
    (∀ g ∈ upSim.1, g.length = layers_per_block + 1) := by
  decide

/-- C10: the compositor only succeeds when both spatial sizes are at
least 64: `fill_checkerboard_bg` fails (the `H/64 × W/64` checkerboard
is empty along some axis, so the nearest-neighbour resize raises)
exactly when the height or the width of its channel-last input is below
64. -/
theorem C10_compositor_min_size (y : Tensor4) :
    fill_checkerboard_bg y = .error .emptySource ↔ (y.n1 < 64 ∨ y.n2 < 64) := by
  unfold fill_checkerboard_bg
  split_ifs with h
  · constructor
    · intro _
      rcases h with h | h
      · exact Or.inl (by omega)
      · exact Or.inr (by omega)
    · intro _
      rfl
  · constructor
    · intro hh
      exact hh.elim
    · intro hh
      exfalso
      push_neg at h
      rcases hh with hh | hh
      · omega
      · omega

theorem C10_compositor_min_size_witness :
    fill_checkerboard_bg (constT 1 63 64 4 (Val.num 0)) = .error .emptySource :=
  (C10_compositor_min_size (constT 1 63 64 4 (Val.num 0))).mpr (Or.inl (by decide))

/-- C8 counterexample: the offset encoder does not preserve spatial
dimensions — on a 1×4×64×64 input, `encode` yields spatial size 8×8
(the three stride-2 convolutions each halve the resolution) — and the
stack has 17 modules (9 convolutions, 8 SiLU activations), not 13. -/
theorem C8_spatial_not_preserved :
    offsetEncodeShape (1, 4, 64, 64) = some (1, 4, 8, 8) ∧
    (8 : ℕ) ≠ 64 ∧
    offsetEncoderModules.length = 17 ∧
    (offsetEncoderModules.filter OffMod.isConv).length = 9 ∧
    (17 : ℕ) ≠ 13 ∧ (9 : ℕ) ≠ 13 := by
  decide

/-- C8 (amended): the Offset Encoder is a fixed stack of 9 convolutions
with SiLU activations between them (17 modules in all), channel widths
4→32→32→64→64→128→128→256→256→4, with stride-2 steps at the third,
fifth and seventh convolution and a zero-initialized final convolution;
`encode(latent)` preserves the batch dimension, reduces the channel
count to 4, and downsamples each spatial dimension by a factor of 8
(with ceiling rounding). -/
theorem C8_offset_encoder_amended :
    (offsetEncoderModules.filter OffMod.isConv).length = 9 ∧
    offsetEncoderModules.length = 17 ∧
    offsetEncoderModules.getLast? = some (.conv 256 4 3 1 1 true) ∧
    (∀ b h w : ℕ, 1 ≤ h → 1 ≤ w →
      offsetEncodeShape (b, 4, h, w) = some (b, 4, (h + 7) / 8, (w + 7) / 8)) := by
  refine ⟨by decide, by decide, by decide, ?_⟩
  intro b h w hh hw
  simp only [offsetEncodeShape, offsetEncoderModules, List.foldl_cons, List.foldl_nil,
    offStep_silu, offStep_conv, convOutDim, Option.some.injEq, Prod.mk.injEq]
  refine ⟨trivial, trivial, ?_, ?_⟩ <;> omega

theorem C8_offset_encoder_amended_witness :
    offsetEncodeShape (1, 4, 5, 7) = some (1, 4, 1, 1) :=
  C8_offset_encoder_amended.2.2.2 1 5 7 (by decide) (by decide)

theorem meanStack_ensemble_dims (net : Tensor4 → Tensor4 → Tensor4) (p l : Tensor4) :
    (meanStack (ensembleList net p l)).n0 = (net p l).n0 ∧
    (meanStack (ensembleList net p l)).n1 = (net p l).n1 ∧
    (meanStack (ensembleList net p l)).n2 = (net p l).n2 ∧
    (meanStack (ensembleList net p l)).n3 = (net p l).n3 :=
  ⟨rfl, rfl, rfl, rfl⟩

theorem meanStack_entry (L : List Tensor4) (hL : L ≠ []) (a b c d : ℕ)
    (h0 : a < (meanStack L).n0) (h1 : b < (meanStack L).n1)
    (h2 : c < (meanStack L).n2) (h3 : d < (meanStack L).n3) :
    (meanStack L).entry a b c d =
      Val.divNat ((L.map fun t => t.entry a b c d).foldl Val.add (Val.num 0)) L.length := by
  cases L with
  | nil => exact absurd rfl hL
  | cons h tl =>
    rw [entry_eq _ _ _ _ _ h0 h1 h2 h3, List.foldl_map]
    rfl

/-- C1: whenever `decode_pixel` returns a tensor (for a network obeying
the `UNet1024` shape contract), that tensor has channel dimension
(dim 1) equal to 4, every value is a finite number in [0, 1], its
spatial resolution equals the pixel input's spatial resolution exactly,
and it is placed on the original device and dtype of the pixel input. -/
theorem C1_decode_pixel_contract (D : TransparentVAEDecoder) (pixel latent y : Tensor4)
    (hnet : NetShapeOK D.net)
    (hok : decode_pixel D pixel latent = .ok y) :
    y.n1 = 4 ∧ (∀ i j u v, ValIn01 (y.data i j u v)) ∧
    y.n2 = pixel.n2 ∧ y.n3 = pixel.n3 ∧ y.dev = pixel.dev ∧ y.dt = pixel.dt := by
  simp only [decode_pixel] at hok
  split at hok
  · next hc =>
    split at hok
    · exact absurd hok (by simp)
    · next y' heq =>
      obtain ⟨hss, hbad, hy'⟩ := est_ok_inv _ _ _ _ heq
      subst hy'
      split at hok
      · next h4 =>
        injection hok with hok
        subst hok
        refine ⟨h4, ?_, ?_, ?_, rfl, rfl⟩
        · intro i j u v
          exact clip01_in01 _ (meanStack_good _ hbad i j u v)
        · exact (meanStack_ensemble_dims D.net _ _).2.2.1.trans
            (hnet (pixel.toDev D.load_device D.dtype) (latent.toDev D.load_device D.dtype)).2.2.1
        · exact (meanStack_ensemble_dims D.net _ _).2.2.2.trans
            (hnet (pixel.toDev D.load_device D.dtype) (latent.toDev D.load_device D.dtype)).2.2.2
      · exact absurd hok (by simp)
  · exact absurd hok (by simp)

theorem C1_decode_pixel_contract_witness :
    (exceptGet (decode_pixel D0 p0 l0)).n1 = 4 ∧
    (∀ i j u v, ValIn01 ((exceptGet (decode_pixel D0 p0 l0)).data i j u v)) ∧
    (exceptGet (decode_pixel D0 p0 l0)).n2 = p0.n2 ∧
    (exceptGet (decode_pixel D0 p0 l0)).n3 = p0.n3 ∧
    (exceptGet (decode_pixel D0 p0 l0)).dev = p0.dev ∧
    (exceptGet (decode_pixel D0 p0 l0)).dt = p0.dt :=
  C1_decode_pixel_contract D0 p0 l0 (exceptGet (decode_pixel D0 p0 l0))
    (fun _ _ => ⟨rfl, rfl, rfl, rfl⟩)
    (isOk_get _ (by decide))

/-- C3: when the stacked 8-way ensemble tensor (built on the converted
inputs) contains a NaN or infinite value, `decode_pixel` fails with the
data-integrity ValueError raised before aggregation; when it contains
none, that error branch is not taken and any returned result contains
no NaN or infinite value. -/
theorem C3_nan_inf_validation (D : TransparentVAEDecoder) (pixel latent : Tensor4)
    (hc : pixel.n1 = 3)
    (hss : sameShapeB (decodeEnsemble D pixel latent) = true) :
    (stackHasBadB (decodeEnsemble D pixel latent) = true →
      decode_pixel D pixel latent = .error .nanInf) ∧
    (stackHasBadB (decodeEnsemble D pixel latent) = false →
      decode_pixel D pixel latent ≠ .error .nanInf ∧
      ∀ y, decode_pixel D pixel latent = .ok y → Tensor4.NoBad y) := by
  constructor
  · intro hbad
    simp only [decode_pixel]
    rw [if_pos hc, est_err_nan _ _ _ hss hbad]
  · intro hbad
    have hest := est_ok D.net (pixel.toDev D.load_device D.dtype)
      (latent.toDev D.load_device D.dtype) hss hbad
    constructor
    · simp only [decode_pixel]
      rw [if_pos hc, hest]
      dsimp only
      split_ifs <;> simp
    · intro y hok
      simp only [decode_pixel] at hok
      rw [if_pos hc, hest] at hok
      dsimp only at hok
      split at hok
      · injection hok with hok
        subst hok
        intro i j u v
        exact clip01_good _ (meanStack_good _ hbad i j u v)
      · exact absurd hok (by simp)

theorem C3_nan_inf_validation_witness :
    (stackHasBadB (decodeEnsemble DNaN p0 l0) = true →
      decode_pixel DNaN p0 l0 = .error .nanInf) ∧
    (stackHasBadB (decodeEnsemble DNaN p0 l0) = false →
      decode_pixel DNaN p0 l0 ≠ .error .nanInf ∧
      ∀ y, decode_pixel DNaN p0 l0 = .ok y → Tensor4.NoBad y) :=
  C3_nan_inf_validation DNaN p0 l0 (by decide) (by decide)

/-- C5: the ensemble is exactly the 8 fixed augmentation descriptors in
the order rotation steps 0, 1, 2, 3 with flip = false followed by
0, 1, 2, 3 with flip = true; each per-augmentation network output is
clamped to [0, 1] before the inverse transform is applied; and the
aggregate returned by `estimate_augmented` is the elementwise
arithmetic mean (sum divided by 8) across the stacked ensemble axis. -/
theorem C5_ensemble_mean (net : Tensor4 → Tensor4 → Tensor4) (p l : Tensor4)
    (hss : sameShapeB (ensembleList net p l) = true)
    (hbad : stackHasBadB (ensembleList net p l) = false) :
    ensembleList net p l =
      [augPass net p l false 0, augPass net p l false 1, augPass net p l false 2,
       augPass net p l false 3, augPass net p l true 0, augPass net p l true 1,
       augPass net p l true 2, augPass net p l true 3] ∧
    (∀ flip k, augPass net p l flip k =
      augInv flip k ((net (augFwd flip k p) (augFwd flip k l)).clip01T)) ∧
    estimate_augmented net p l = .ok (meanStack (ensembleList net p l)) ∧
    (∀ a b c d : ℕ, a < (meanStack (ensembleList net p l)).n0 →
      b < (meanStack (ensembleList net p l)).n1 →
      c < (meanStack (ensembleList net p l)).n2 →
      d < (meanStack (ensembleList net p l)).n3 →
      (meanStack (ensembleList net p l)).entry a b c d =
        Val.divNat
          (((ensembleList net p l).map fun t => t.entry a b c d).foldl Val.add (Val.num 0))
          8) := by
  refine ⟨rfl, fun flip k => rfl, est_ok net p l hss hbad, ?_⟩
  intro a b c d h0 h1 h2 h3
  have hlen : (ensembleList net p l).length = 8 := by
    simp [ensembleList, augArgs]
  rw [← hlen]
  exact meanStack_entry _ (by simp [ensembleList, augArgs]) a b c d h0 h1 h2 h3

theorem C5_ensemble_mean_witness :
    ensembleList net0 p0 l0 =
      [augPass net0 p0 l0 false 0, augPass net0 p0 l0 false 1, augPass net0 p0 l0 false 2,
       augPass net0 p0 l0 false 3, augPass net0 p0 l0 true 0, augPass net0 p0 l0 true 1,
       augPass net0 p0 l0 true 2, augPass net0 p0 l0 true 3] ∧
    (∀ flip k, augPass net0 p0 l0 flip k =
      augInv flip k ((net0 (augFwd flip k p0) (augFwd flip k l0)).clip01T)) ∧
    estimate_augmented net0 p0 l0 = .ok (meanStack (ensembleList net0 p0 l0)) ∧
    (∀ a b c d : ℕ, a < (meanStack (ensembleList net0 p0 l0)).n0 →
      b < (meanStack (ensembleList net0 p0 l0)).n1 →
      c < (meanStack (ensembleList net0 p0 l0)).n2 →
      d < (meanStack (ensembleList net0 p0 l0)).n3 →
      (meanStack (ensembleList net0 p0 l0)).entry a b c d =
        Val.divNat
          (((ensembleList net0 p0 l0).map fun t => t.entry a b c d).foldl Val.add (Val.num 0))
          8) :=
  C5_ensemble_mean net0 p0 l0 (by decide) (by decide)

theorem downPhase_eq_downOuts (m : UNetBlocks) (sl s0 : Tensor4) (n : ℕ) :
    ((List.range n).foldl (downStep m sl) (s0, [s0])).1 = downOuts m sl s0 n := by
  induction n with
  | zero => rfl
  | succ k ih =>
    rw [List.range_succ, List.foldl_append]
    simp only [List.foldl_cons, List.foldl_nil, downStep, downOuts]
    rw [ih]

theorem conv_zero_foldl (latent : Tensor4) (hl : Tensor4.NoBad latent)
    (i : Fin latent.n0) (u : Fin latent.n2) (v : Fin latent.n3) :
    ∀ (L : List (Fin latent.n1)) (acc : Val), acc = Val.num 0 →
      L.foldl (fun acc j => acc.add ((Val.num 0).mul (latent.data i j u v))) acc =
        Val.num 0 := by
  intro L
  induction L with
  | nil => intro acc h; exact h
  | cons j L ih =>
    intro acc h
    apply ih
    obtain ⟨q, hq⟩ := (isBad_false_iff _).1 (hl i j u v)
    simp [h, hq, Val.add, Val.mul]

/-- C6: in the `UNet1024` forward pass, `latent_conv_in` projects the
latent to the channel width of the third encoder stage
(`block_out_channels[2] = 64`), is zero-initialized (all parameters
zero, so on finite inputs the projection contributes the zero tensor),
and the down loop adds the projected latent to the running sample after
the third encoder stage's output is produced and before the fourth
encoder stage (zero-indexed block 3) consumes it, as exhibited by the
`downOuts` characterisation of `downPhase`. -/
theorem C6_latent_injection (w : ℕ → ℕ → ℚ) (bs : ℕ → ℚ) (m : UNetBlocks)
    (x latent : Tensor4) :
    (latent_conv_in w bs).outC = block_out_channels.getD 2 0 ∧
    block_out_channels.getD 2 0 = 64 ∧
    (∀ o j, (latent_conv_in w bs).weight o j = 0) ∧
    (∀ o, (latent_conv_in w bs).bias o = 0) ∧
    (latent.NoBad →
      ∀ i o u v, (conv1x1 (latent_conv_in w bs) latent).data i o u v = Val.num 0) ∧
    (downPhase m (conv1x1 (latent_conv_in w bs) latent) (m.conv_in x)).1 =
      downOuts m (conv1x1 (latent_conv_in w bs) latent) (m.conv_in x) 7 := by
  refine ⟨rfl, rfl, fun o j => rfl, fun o => rfl, ?_,
    downPhase_eq_downOuts m _ _ 7⟩
  intro hl i o u v
  exact conv_zero_foldl latent hl i u v (List.finRange latent.n1) _ rfl

theorem C6_latent_injection_witness :
    (latent_conv_in w0 bs0).outC = block_out_channels.getD 2 0 ∧
    block_out_channels.getD 2 0 = 64 ∧
    (∀ o j, (latent_conv_in w0 bs0).weight o j = 0) ∧
    (∀ o, (latent_conv_in w0 bs0).bias o = 0) ∧
    (l0.NoBad →
      ∀ i o u v, (conv1x1 (latent_conv_in w0 bs0) l0).data i o u v = Val.num 0) ∧
    (downPhase m0 (conv1x1 (latent_conv_in w0 bs0) l0) (m0.conv_in p0)).1 =
      downOuts m0 (conv1x1 (latent_conv_in w0 bs0) l0) (m0.conv_in p0) 7 :=
  C6_latent_injection w0 bs0 m0 p0 l0

/-- C7: the checkerboard compositor computes
`fg * alpha + cb * (1 - alpha)` where the rescaled checkerboard takes
exactly the two values 9/20 = 0.45 and 11/20 = 0.55; consequently, for
an RGBA input with alpha identically 1 it returns the RGB channels
unchanged, and for alpha identically 0 (and finite inputs) it returns
exactly the checkerboard values broadcast across channels. -/
theorem C7_checkerboard_compositor (y : Tensor4) (h1 : 64 ≤ y.n1) (h2 : 64 ≤ y.n2) :
    (∀ p q : ℕ, cbRescaled y.n1 y.n2 p q = 9/20 ∨ cbRescaled y.n1 y.n2 p q = 11/20) ∧
    (∀ r, fill_checkerboard_bg y = .ok r →
      r.n0 = y.n0 ∧ r.n1 = y.n1 ∧ r.n2 = y.n2 ∧ r.n3 = y.n3 - 1 ∧
      ((∀ b p q, b < y.n0 → p < y.n1 → q < y.n2 → 0 < y.n3 →
          y.entry b p q 0 = Val.num 1) →
        ∀ b p q c, b < y.n0 → p < y.n1 → q < y.n2 → c < y.n3 - 1 →
          r.entry b p q c = y.entry b p q (c + 1)) ∧
      ((∀ b p q, b < y.n0 → p < y.n1 → q < y.n2 → 0 < y.n3 →
          y.entry b p q 0 = Val.num 0) →
        y.NoBad →
        ∀ b p q c, b < y.n0 → p < y.n1 → q < y.n2 → c < y.n3 - 1 →
          r.entry b p q c = Val.num (cbRescaled y.n1 y.n2 p q))) := by
  constructor
  · intro p q
    unfold cbRescaled resizeNearest checkerboardPat
    rcases Nat.mod_two_eq_zero_or_one
      (p * (y.n1 / 64) / y.n1 + q * (y.n2 / 64) / y.n2) with hm | hm <;> rw [hm]
    · left
      norm_num
    · right
      norm_num
  · intro r hr
    have hcond : ¬(y.n1 / 64 = 0 ∨ y.n2 / 64 = 0) := by
      push_neg
      constructor <;> omega
    unfold fill_checkerboard_bg at hr
    rw [if_neg hcond] at hr
    injection hr with hr
    subst hr
    refine ⟨rfl, rfl, rfl, rfl, ?_, ?_⟩
    · intro hα b p q c hb hp hq hc
      have hn3 : c + 1 < y.n3 := by omega
      have h0n3 : 0 < y.n3 := by omega
      have hα' := hα b p q hb hp hq h0n3
      rw [entry_eq y b p q 0 hb hp hq h0n3] at hα'
      rw [entry_eq y b p q (c + 1) hb hp hq hn3]
      conv_lhs => rw [Tensor4.entry]
      rw [dif_pos (show b < y.n0 ∧ p < y.n1 ∧ q < y.n2 ∧ c < y.n3 - 1 from
        ⟨hb, hp, hq, hc⟩)]
      show ((y.data ⟨b, hb⟩ ⟨p, hp⟩ ⟨q, hq⟩ ⟨c + 1, hn3⟩).mul
          (y.data ⟨b, hb⟩ ⟨p, hp⟩ ⟨q, hq⟩ ⟨0, h0n3⟩)).add
        ((Val.num (cbRescaled y.n1 y.n2 p q)).mul
          ((Val.num 1).sub (y.data ⟨b, hb⟩ ⟨p, hp⟩ ⟨q, hq⟩ ⟨0, h0n3⟩))) =
        y.data ⟨b, hb⟩ ⟨p, hp⟩ ⟨q, hq⟩ ⟨c + 1, hn3⟩
      rw [hα']
      cases y.data ⟨b, hb⟩ ⟨p, hp⟩ ⟨q, hq⟩ ⟨c + 1, hn3⟩ <;>
        simp [Val.mul, Val.add, Val.sub, Val.neg]
    · intro hα hfin b p q c hb hp hq hc
      have hn3 : c + 1 < y.n3 := by omega
      have h0n3 : 0 < y.n3 := by omega
      have hα' := hα b p q hb hp hq h0n3
      rw [entry_eq y b p q 0 hb hp hq h0n3] at hα'
      conv_lhs => rw [Tensor4.entry]
      rw [dif_pos (show b < y.n0 ∧ p < y.n1 ∧ q < y.n2 ∧ c < y.n3 - 1 from
        ⟨hb, hp, hq, hc⟩)]
      show ((y.data ⟨b, hb⟩ ⟨p, hp⟩ ⟨q, hq⟩ ⟨c + 1, hn3⟩).mul
          (y.data ⟨b, hb⟩ ⟨p, hp⟩ ⟨q, hq⟩ ⟨0, h0n3⟩)).add
        ((Val.num (cbRescaled y.n1 y.n2 p q)).mul
          ((Val.num 1).sub (y.data ⟨b, hb⟩ ⟨p, hp⟩ ⟨q, hq⟩ ⟨0, h0n3⟩))) =
        Val.num (cbRescaled y.n1 y.n2 p q)
      rw [hα']
      obtain ⟨a, ha⟩ := (isBad_false_iff _).1
        (hfin ⟨b, hb⟩ ⟨p, hp⟩ ⟨q, hq⟩ ⟨c + 1, hn3⟩)
      rw [ha]
      simp [Val.mul, Val.add, Val.sub, Val.neg]

theorem C7_checkerboard_compositor_witness :
    (∀ p q : ℕ, cbRescaled y0.n1 y0.n2 p q = 9/20 ∨ cbRescaled y0.n1 y0.n2 p q = 11/20) ∧
    (∀ r, fill_checkerboard_bg y0 = .ok r →
      r.n0 = y0.n0 ∧ r.n1 = y0.n1 ∧ r.n2 = y0.n2 ∧ r.n3 = y0.n3 - 1 ∧
      ((∀ b p q, b < y0.n0 → p < y0.n1 → q < y0.n2 → 0 < y0.n3 →
          y0.entry b p q 0 = Val.num 1) →
        ∀ b p q c, b < y0.n0 → p < y0.n1 → q < y0.n2 → c < y0.n3 - 1 →
          r.entry b p q c = y0.entry b p q (c + 1)) ∧
      ((∀ b p q, b < y0.n0 → p < y0.n1 → q < y0.n2 → 0 < y0.n3 →
          y0.entry b p q 0 = Val.num 0) →
        y0.NoBad →
        ∀ b p q c, b < y0.n0 → p < y0.n1 → q < y0.n2 → c < y0.n3 - 1 →
          r.entry b p q c = Val.num (cbRescaled y0.n1 y0.n2 p q))) :=
  C7_checkerboard_compositor y0 (by decide) (by decide)
